import Mathlib

/-!
Verification of the synchronized session recorder
(`app/session_recorder.py`) and the offline sync checker
(`check_sync.py`).

Modelling conventions:
* Python `float` wall-clock times and durations are modelled as exact
  rationals (`ℚ`); `time.time()` readings are passed in explicitly as
  parameters, one per call site.
* Python `set` of key names is modelled as `Finset String`.
* The mutable `SessionRecorder` object is modelled as a state record,
  its methods as state transformers; file-system effects are recorded
  in explicit fields of the state (`disk`, `events`).
-/

/-! ## check_sync.py -/

/-- Variant tag of a key event, as filtered by `build_key_state_timeline`
(`data.get('event') in ['keydown', 'keyup']`). -/
inductive KeyEventKind where
  | keydown
  | keyup
deriving DecidableEq, Repr

/-- One entry `(data['t'], data['key'], data['event'])` of the timeline
built by `build_key_state_timeline`. -/
abbrev KeyTimeline := List (ℚ × String × KeyEventKind)

/-- Embeds the `for` loop of `get_keys_down_at_time`: walk the timeline in
order, `break` at the first entry with `t > target_utc`, otherwise
`add`/`discard` the key, threading the accumulator `keys_down`. -/
def keysDownLoop (target_utc : ℚ) : KeyTimeline → Finset String → Finset String
  | [], keys_down => keys_down
  | (t, key, ev) :: rest, keys_down =>
    if target_utc < t then keys_down
    else keysDownLoop target_utc rest
      (match ev with
       | .keydown => insert key keys_down
       | .keyup => keys_down.erase key)

/-- `get_keys_down_at_time(timeline, target_utc)` from `check_sync.py`:
replays history up to `target_utc` starting from the empty set. -/
def get_keys_down_at_time (timeline : KeyTimeline) (target_utc : ℚ) : Finset String :=
  keysDownLoop target_utc timeline ∅

/-- Rephrasing of the spec's description of `keys_down_at`: apply
`keydown`→add / `keyup`→remove over the prefix of events whose timestamp
does not exceed `t`, i.e. stop before the first event with timestamp
strictly greater than `t`. Used to compare the code against the spec's
words. -/
def keysDownSpec (timeline : KeyTimeline) (t : ℚ) : Finset String :=
  (timeline.takeWhile (fun e => decide (e.1 ≤ t))).foldl
    (fun keys e =>
      match e.2.2 with
      | .keydown => insert e.2.1 keys
      | .keyup => keys.erase e.2.1)
    ∅

/-- The frame-period constant hard-coded in `check_sync.py`'s fallback
(`0.1`, one frame at the 10 FPS target). -/
def checker_frame_period : ℚ := 1 / 10

/-- Embeds the frame-index → timestamp lookup of `check_sync.main`
(lines 125–129): `frame_timestamps[frame_idx]` when in range, otherwise
`frame_timestamps[-1] + 0.1 * (frame_idx - len(frame_timestamps))`. -/
def frame_timestamp (frame_timestamps : List ℚ) (frame_idx : ℕ) : ℚ :=
  if frame_idx < frame_timestamps.length then
    frame_timestamps.getD frame_idx 0
  else
    frame_timestamps.getLastD 0 +
      checker_frame_period * ((frame_idx : ℚ) - (frame_timestamps.length : ℚ))

/-! ## app/session_recorder.py — SessionRecorder state machine

The capture worker thread is modelled separately below; here we model the
controller-visible state and the methods `start_session`, `stop_session`,
`log_key_event`, `log_marker_event`, `get_session_stats`. -/

/-- One line written to `<name>_events.jsonl`. -/
inductive EventEntry where
  | key (event : String) (key : String) (t : ℚ)
  | marker (type : String) (t : ℚ)
deriving DecidableEq, Repr

/-- Controller-visible state of a `SessionRecorder` object, together with
an explicit model of its file-system effects: `disk` lists, in order, the
paths created or truncated by opening output files, and `events` holds the
content of the currently open `_events.jsonl` file. -/
structure RecorderState where
  is_recording : Bool
  shutdown_set : Bool
  worker_started : Bool
  fights_marked : ℕ
  last_action : String
  in_fight : Bool
  total_fight_time : ℚ
  current_fight_start_time : ℚ
  disk : List String
  events : List EventEntry
deriving DecidableEq, Repr

/-- Errors named by the specification's error taxonomy. The source defines
no such exception classes; this type exists so that theorems can state
whether `start_session` surfaces them. -/
inductive RecError where
  | alreadyRecording
  | captureInit
deriving DecidableEq, Repr

/-- `SessionRecorder.start_session(session_name)`.

`sink_opens` models whether the video sink can actually be opened for the
configured region and rate; `cv2.VideoWriter` does not raise on failure
(it returns a writer whose `isOpened()` is false) and the source never
inspects it, so the definition ignores `sink_opens` entirely — faithful to
lines 39–74 of the source. The result is an `Except` so theorems can state
that no error is ever surfaced; the early `return` on `is_recording` is
`Except.ok` with the state unchanged. -/
def start_session (s : RecorderState) (session_name : String)
    (sink_opens : Bool) : Except RecError RecorderState :=
  if s.is_recording then .ok s
  else
    .ok { is_recording := true
          shutdown_set := false
          worker_started := true
          fights_marked := 0
          last_action := "Ready"
          in_fight := false
          total_fight_time := 0
          current_fight_start_time := 0
          disk := s.disk ++
            [session_name ++ ".mp4",
             session_name ++ "_events.jsonl",
             session_name ++ "_frames.jsonl"]
          events := [] }

/-- `SessionRecorder.stop_session()`, called when the wall clock reads
`t`: early return if not recording; otherwise fold the partial fight time
into the total when `in_fight`, clear the flag, clear `is_recording` and
set the shutdown event. -/
def stop_session (s : RecorderState) (t : ℚ) : RecorderState :=
  if !s.is_recording then s
  else
    let s1 :=
      if s.in_fight then
        { s with
          total_fight_time := s.total_fight_time + (t - s.current_fight_start_time)
          in_fight := false }
      else s
    { s1 with is_recording := false, shutdown_set := true }

/-- `SessionRecorder.log_key_event(event_type, key)` at wall-clock time
`t`. -/
def log_key_event (s : RecorderState) (event_type key : String) (t : ℚ) :
    RecorderState :=
  if !s.is_recording then s
  else
    { s with
      events := s.events ++ [.key event_type key t]
      last_action := key ++ " (" ++ event_type ++ ")" }

/-- `SessionRecorder.log_marker_event(marker_type)` at wall-clock time
`t`: append the marker to the event log, update `last_action`, then run
the fight-timer logic (`fight_start` increments the counter and opens a
fight if none is open; `fight_end` closes an open fight, accumulating its
duration; other kinds only log). -/
def log_marker_event (s : RecorderState) (marker_type : String) (t : ℚ) :
    RecorderState :=
  if !s.is_recording then s
  else
    let s1 := { s with
      events := s.events ++ [.marker marker_type t]
      last_action := "MARKER: " ++ marker_type }
    if marker_type = "fight_start" then
      let s2 := { s1 with fights_marked := s1.fights_marked + 1 }
      if !s2.in_fight then
        { s2 with in_fight := true, current_fight_start_time := t }
      else s2
    else if marker_type = "fight_end" then
      if s1.in_fight then
        { s1 with
          total_fight_time := s1.total_fight_time + (t - s1.current_fight_start_time)
          in_fight := false }
      else s1
    else s1

/-- The dictionary returned by `SessionRecorder.get_session_stats`. -/
structure SessionStats where
  elapsed_s : ℚ
  fights_marked : ℕ
  last_action : String
deriving DecidableEq, Repr

/-- `SessionRecorder.get_session_stats()` at wall-clock time `t`. -/
def get_session_stats (s : RecorderState) (t : ℚ) : SessionStats :=
  if !s.is_recording then
    { elapsed_s := 0, fights_marked := 0, last_action := "Stopped" }
  else
    { elapsed_s :=
        s.total_fight_time +
          (if s.in_fight then t - s.current_fight_start_time else 0)
      fights_marked := s.fights_marked
      last_action := s.last_action }

/-- Applies a list of `(marker_type, wall-clock time)` marker events in
order. -/
def applyMarkers (s : RecorderState) (ms : List (String × ℚ)) : RecorderState :=
  ms.foldl (fun s m => log_marker_event s m.1 m.2) s

/-- Expands a list of completed fights, given as `(start time, end time)`
pairs, into the corresponding alternating marker sequence. -/
def pairsToMarkers (pairs : List (ℚ × ℚ)) : List (String × ℚ) :=
  pairs.flatMap fun p => [("fight_start", p.1), ("fight_end", p.2)]

/-! ## app/session_recorder.py — the capture worker `_worker`

The worker thread is modelled as a pure transition system. Each loop
iteration with a successful grab is one "tick", given by the frame it
grabbed and the wall-clock reading `now = time.time()` taken right after
the grab (line 169). Iterations whose grab raises hit `continue` and
change no state, so they do not appear. The catch-up `while` loop
(lines 171–180) is `catchUp`; the sleep step changes no state. -/

/-- The hard-coded capture target rate (`target_fps = 10.0`). -/
def target_fps : ℚ := 10

/-- `frame_duration = 1.0 / target_fps` (one frame period). -/
def frame_duration : ℚ := 1 / target_fps

/-- The inner catch-up loop of `_worker`:
`while next_frame_time < now:` write one frame, log `next_frame_time`,
advance `next_frame_time += frame_duration`. Returns the list of
timestamps written during this iteration (one video frame is written per
entry, all with the just-grabbed pixel data) and the final value of
`next_frame_time`. -/
def catchUp (now next_frame_time : ℚ) : List ℚ × ℚ :=
  if next_frame_time < now then
    ((next_frame_time :: (catchUp now (next_frame_time + frame_duration)).1),
      (catchUp now (next_frame_time + frame_duration)).2)
  else ([], next_frame_time)
termination_by (⌈(now - next_frame_time) * 10⌉).toNat
decreasing_by
  all_goals
    rename_i h
    have hfd : frame_duration = 1 / 10 := by norm_num [frame_duration, target_fps]
    rw [hfd]
    have h1 : (now - (next_frame_time + 1 / 10)) * 10
        = (now - next_frame_time) * 10 - 1 := by ring
    rw [h1, Int.ceil_sub_one]
    have h2 : 0 < ⌈(now - next_frame_time) * 10⌉ := Int.ceil_pos.mpr (by linarith)
    omega

/-- State of the worker thread, with the two output streams it owns:
`frame_log` is the sequence of timestamps written to `_frames.jsonl` and
`video` the sequence of frames written to the video sink, both in write
order. `α` is the type of frame pixel data. -/
structure WorkerState (α : Type) where
  next_frame_time : ℚ
  frame_log : List ℚ
  video : List α
deriving DecidableEq, Repr

/-- One loop iteration of `_worker` with a successful grab: the grabbed
frame `frame_bgr`, the clock reading `now`, then the catch-up loop. -/
def workerStep {α : Type} (frame_bgr : α) (now : ℚ) (s : WorkerState α) :
    WorkerState α :=
  let r := catchUp now s.next_frame_time
  { next_frame_time := r.2
    frame_log := s.frame_log ++ r.1
    video := s.video ++ r.1.map (fun _ => frame_bgr) }

/-- Runs the worker over a list of ticks `(now, grabbed frame)`, in
order. -/
def workerRun {α : Type} (ticks : List (ℚ × α)) (s : WorkerState α) :
    WorkerState α :=
  ticks.foldl (fun s p => workerStep p.2 p.1 s) s

/-- Worker state at loop entry: `next_frame_time = time.time()` (the
reading `t0`), both output streams empty. -/
def initWorker (α : Type) (t0 : ℚ) : WorkerState α :=
  { next_frame_time := t0, frame_log := [], video := [] }

/-- The worker's output after a whole recording run that started at `t0`
and observed the given ticks. -/
def worker_output (α : Type) (t0 : ℚ) (ticks : List (ℚ × α)) : WorkerState α :=
  workerRun ticks (initWorker α t0)

/-- Invariant tying a worker state to the nominal schedule anchored at
`t0`: the frame log is exactly `t0, t0 + fd, t0 + 2*fd, …`, the schedule
variable sits one period after the last logged slot, and the video sink
holds exactly one frame per logged timestamp. -/
def NominalLog {α : Type} (t0 : ℚ) (s : WorkerState α) : Prop :=
  s.frame_log =
      (List.range s.frame_log.length).map
        (fun i : ℕ => t0 + (i : ℚ) * frame_duration) ∧
    s.next_frame_time = t0 + (s.frame_log.length : ℚ) * frame_duration ∧
    s.video.length = s.frame_log.length

/-! ## Concrete states used in examples and witnesses -/

/-- A recorder state as produced by `start_session`: recording, no fight
open, fresh counters. -/
def recState0 : RecorderState :=
  { is_recording := true
    shutdown_set := false
    worker_started := true
    fights_marked := 0
    last_action := "Ready"
    in_fight := false
    total_fight_time := 0
    current_fight_start_time := 0
    disk := ["s.mp4", "s_events.jsonl", "s_frames.jsonl"]
    events := [] }

/-- A recorder state mid-fight: one `fight_start` marked at time 20,
5 seconds of completed fights already accumulated. -/
def fightState0 : RecorderState :=
  { is_recording := true
    shutdown_set := false
    worker_started := true
    fights_marked := 2
    last_action := "MARKER: fight_start"
    in_fight := true
    total_fight_time := 5
    current_fight_start_time := 20
    disk := ["s.mp4", "s_events.jsonl", "s_frames.jsonl"]
    events := [] }

/-- A freshly constructed recorder: idle, nothing on disk. -/
def idleState0 : RecorderState :=
  { is_recording := false
    shutdown_set := false
    worker_started := false
    fights_marked := 0
    last_action := ""
    in_fight := false
    total_fight_time := 0
    current_fight_start_time := 0
    disk := []
    events := [] }

/-- The two-event timeline of the spec's concrete `keys_down_at`
example. -/
def exampleTimeline : KeyTimeline :=
  [(1, "f", .keydown), (2, "f", .keyup)]

/-! ## Lemmas about the catch-up loop -/

lemma frame_duration_eq : frame_duration = 1 / 10 := by
  norm_num [frame_duration, target_fps]

lemma frame_duration_pos : 0 < frame_duration := by
  rw [frame_duration_eq]
  norm_num

lemma catchUp_of_lt {now next : ℚ} (h : next < now) :
    catchUp now next =
      ((next :: (catchUp now (next + frame_duration)).1),
        (catchUp now (next + frame_duration)).2) := by
  rw [catchUp]
  simp [h]

lemma catchUp_of_not_lt {now next : ℚ} (h : ¬ next < now) :
    catchUp now next = ([], next) := by
  rw [catchUp]
  simp [h]

lemma catchUp_snd (now : ℚ) :
    ∀ next, (catchUp now next).2
      = next + (catchUp now next).1.length * frame_duration := by
  intro next
  induction next using catchUp.induct with
  | now => exact now
  | case1 x h ih =>
    rw [catchUp_of_lt h]
    simp only [List.length_cons]
    push_cast
    rw [ih]
    ring
  | case2 x h =>
    rw [catchUp_of_not_lt h]
    simp

lemma catchUp_fst_ap (now : ℚ) :
    ∀ next, (catchUp now next).1 =
      (List.range (catchUp now next).1.length).map
        (fun j : ℕ => next + (j : ℚ) * frame_duration) := by
  intro next
  induction next using catchUp.induct with
  | now => exact now
  | case1 x h ih =>
    rw [catchUp_of_lt h]
    simp only [List.length_cons, List.range_succ_eq_map, List.map_cons, List.map_map]
    refine congrArg₂ List.cons (by norm_num) ?_
    rw [ih]
    simp only [List.length_map, List.length_range]
    refine List.map_congr_left ?_
    intro a _
    simp only [Function.comp]
    push_cast
    ring
  | case2 x h =>
    rw [catchUp_of_not_lt h]
    simp

lemma catchUp_all_lt (now : ℚ) :
    ∀ next, ∀ t ∈ (catchUp now next).1, t < now := by
  intro next
  induction next using catchUp.induct with
  | now => exact now
  | case1 x h ih =>
    rw [catchUp_of_lt h]
    intro t ht
    rcases List.mem_cons.mp ht with h1 | h2
    · simpa [h1] using h
    · exact ih t h2
  | case2 x h =>
    rw [catchUp_of_not_lt h]
    simp

lemma mem_catchUp (now : ℚ) (j : ℕ) :
    ∀ next, next + (j : ℚ) * frame_duration < now →
      next + (j : ℚ) * frame_duration ∈ (catchUp now next).1 := by
  induction j with
  | zero =>
    intro next h
    norm_num at h ⊢
    rw [catchUp_of_lt h]
    exact List.mem_cons_self _ _
  | succ k ih =>
    intro next h
    have hfd := frame_duration_pos
    have hx : next < now := by
      have hk : (0:ℚ) ≤ ((k : ℚ) + 1) * frame_duration := by positivity
      push_cast at h
      linarith
    rw [catchUp_of_lt hx]
    refine List.mem_cons_of_mem _ ?_
    have h2 : (next + frame_duration) + (k : ℚ) * frame_duration < now := by
      push_cast at h ⊢
      linarith
    have h3 := ih (next + frame_duration) h2
    have heq : (next + frame_duration) + (k : ℚ) * frame_duration
        = next + ((k + 1 : ℕ) : ℚ) * frame_duration := by
      push_cast
      ring
    rwa [heq] at h3

/-! ## The nominal-schedule invariant of the worker -/

lemma nominalLog_init (α : Type) (t0 : ℚ) : NominalLog t0 (initWorker α t0) := by
  refine ⟨by simp [initWorker], by simp [initWorker], by simp [initWorker]⟩

lemma nominalLog_step {α : Type} {t0 : ℚ} (f : α) (now : ℚ) {s : WorkerState α}
    (h : NominalLog t0 s) : NominalLog t0 (workerStep f now s) := by
  obtain ⟨hlog, hnext, hvid⟩ := h
  have hsnd := catchUp_snd now s.next_frame_time
  have hfst := catchUp_fst_ap now s.next_frame_time
  refine ⟨?_, ?_, ?_⟩ <;> simp only [workerStep]
  · rw [List.length_append]
    conv_lhs => rw [hlog, hfst]
    rw [List.range_add, List.map_append, List.map_map]
    refine congrArg₂ List.append rfl ?_
    refine List.map_congr_left ?_
    intro a _
    simp only [Function.comp]
    rw [hnext]
    push_cast
    ring
  · rw [hsnd, hnext]
    simp only [List.length_append]
    push_cast
    ring
  · simp [hvid]

lemma nominalLog_run {α : Type} {t0 : ℚ} (ticks : List (ℚ × α)) :
    ∀ s : WorkerState α, NominalLog t0 s → NominalLog t0 (workerRun ticks s) := by
  induction ticks with
  | nil => intro s h; exact h
  | cons p rest ih =>
    intro s h
    exact ih (workerStep p.2 p.1 s) (nominalLog_step p.2 p.1 h)

lemma nominalLog_output (α : Type) (t0 : ℚ) (ticks : List (ℚ × α)) :
    NominalLog t0 (worker_output α t0 ticks) :=
  nominalLog_run ticks (initWorker α t0) (nominalLog_init α t0)

lemma getD_range_map (g : ℕ → ℚ) (n i : ℕ) (hi : i < n) :
    ((List.range n).map g).getD i 0 = g i := by
  rw [List.getD_eq_getElem _ _ (by simpa using hi), List.getElem_map]
  congr 1
  exact List.getElem_range _ _

lemma nominalLog_getD {α : Type} {t0 : ℚ} {s : WorkerState α}
    (h : NominalLog t0 s) {i : ℕ} (hi : i < s.frame_log.length) :
    s.frame_log.getD i 0 = t0 + (i : ℚ) * frame_duration := by
  conv_lhs => rw [h.1]
  exact getD_range_map _ _ i hi

/-! ## C1: gapless, evenly spaced frame-timestamp log -/

/-- C1: For every recording run of the capture worker (any start reading
`t0`, any tick sequence), the frame-timestamp log has exactly one entry
per frame written to the video sink, entry `i` is the nominal slot
`t0 + i * frame_duration` (the gapless index → timestamp mapping, across
duplicated frames included), and consecutive entries are non-decreasing,
differing by exactly one frame period. -/
theorem C1_frame_log_gapless (α : Type) (t0 : ℚ) (ticks : List (ℚ × α)) :
    (worker_output α t0 ticks).frame_log.length
        = (worker_output α t0 ticks).video.length ∧
      (∀ i : ℕ, i < (worker_output α t0 ticks).frame_log.length →
        (worker_output α t0 ticks).frame_log.getD i 0
          = t0 + (i : ℚ) * frame_duration) ∧
      (∀ i : ℕ, i + 1 < (worker_output α t0 ticks).frame_log.length →
        (worker_output α t0 ticks).frame_log.getD i 0
            ≤ (worker_output α t0 ticks).frame_log.getD (i + 1) 0 ∧
          (worker_output α t0 ticks).frame_log.getD (i + 1) 0
              - (worker_output α t0 ticks).frame_log.getD i 0
            = frame_duration) := by
  have h := nominalLog_output α t0 ticks
  refine ⟨h.2.2.symm, fun i hi => nominalLog_getD h hi, fun i hi => ?_⟩
  have g1 := nominalLog_getD h (Nat.lt_of_succ_lt hi)
  have g2 := nominalLog_getD h hi
  rw [g1, g2]
  have hfd := frame_duration_pos
  constructor
  · have harith : t0 + ((i : ℚ) + 1) * frame_duration
        - (t0 + (i : ℚ) * frame_duration) = frame_duration := by ring
    push_cast
    linarith
  · push_cast
    ring

lemma catchUp_quarter_eval : catchUp (1/4 : ℚ) 0 = ([0, 1/10, 1/5], 3/10) := by
  have h1 : (0:ℚ) < 1/4 := by norm_num
  have h2 : (0:ℚ) + frame_duration < 1/4 := by rw [frame_duration_eq]; norm_num
  have h3 : (0:ℚ) + frame_duration + frame_duration < 1/4 := by
    rw [frame_duration_eq]; norm_num
  have h4 : ¬ ((0:ℚ) + frame_duration + frame_duration + frame_duration < 1/4) := by
    rw [frame_duration_eq]; norm_num
  rw [catchUp_of_lt h1, catchUp_of_lt h2, catchUp_of_lt h3, catchUp_of_not_lt h4]
  rw [frame_duration_eq]
  norm_num

lemma worker_output_quarter_eval :
    worker_output ℕ 0 [((1:ℚ)/4, 5)]
      = { next_frame_time := 3/10, frame_log := [0, 1/10, 1/5],
          video := [5, 5, 5] } := by
  unfold worker_output workerRun initWorker
  simp only [List.foldl_cons, List.foldl_nil, workerStep, catchUp_quarter_eval]
  norm_num

/-- C1 witness: one concrete run — start reading 0, a single tick at time
1/4 grabbing frame 5 — backfills three slots; entry 1 of the log is the
nominal slot `0 + 1 * frame_duration`, and log and video lengths agree. -/
theorem C1_frame_log_gapless_witness :
    1 < (worker_output ℕ 0 [((1:ℚ)/4, 5)]).frame_log.length ∧
      (worker_output ℕ 0 [((1:ℚ)/4, 5)]).frame_log.getD 1 0
        = 0 + ((1 : ℕ) : ℚ) * frame_duration ∧
      (worker_output ℕ 0 [((1:ℚ)/4, 5)]).frame_log.length
        = (worker_output ℕ 0 [((1:ℚ)/4, 5)]).video.length := by
  have hlen : (worker_output ℕ 0 [((1:ℚ)/4, 5)]).frame_log.length = 3 := by
    rw [worker_output_quarter_eval]
    rfl
  have h := C1_frame_log_gapless ℕ 0 [((1:ℚ)/4, 5)]
  exact ⟨by rw [hlen]; norm_num, h.2.1 1 (by rw [hlen]; norm_num), h.1⟩

/-! ## C2: catch-up / backfill behaviour -/

lemma catchUp_mem_iff (now next t : ℚ) :
    t ∈ (catchUp now next).1 ↔
      ∃ j : ℕ, t = next + (j : ℚ) * frame_duration ∧ t < now := by
  constructor
  · intro ht
    have hlt := catchUp_all_lt now next t ht
    have hap := catchUp_fst_ap now next
    rw [hap] at ht
    obtain ⟨j, _, hval⟩ := List.mem_map.mp ht
    exact ⟨j, hval.symm, hlt⟩
  · rintro ⟨j, rfl, hlt⟩
    exact mem_catchUp now j next hlt

lemma catchUp_backfill_32 (next : ℚ) :
    catchUp (next + (16/5) * frame_duration) next
      = ([next, next + frame_duration, next + 2 * frame_duration,
            next + 3 * frame_duration],
          next + 4 * frame_duration) := by
  have hfd := frame_duration_eq
  have h1 : next < next + (16/5) * frame_duration := by rw [hfd]; linarith
  have h2 : next + frame_duration < next + (16/5) * frame_duration := by
    rw [hfd]; linarith
  have h3 : next + frame_duration + frame_duration
      < next + (16/5) * frame_duration := by rw [hfd]; linarith
  have h4 : next + frame_duration + frame_duration + frame_duration
      < next + (16/5) * frame_duration := by rw [hfd]; linarith
  have h5 : ¬ (next + frame_duration + frame_duration + frame_duration
      + frame_duration < next + (16/5) * frame_duration) := by rw [hfd]; linarith
  rw [catchUp_of_lt h1, catchUp_of_lt h2, catchUp_of_lt h3, catchUp_of_lt h4,
    catchUp_of_not_lt h5]
  simp only [Prod.mk.injEq, List.cons.injEq, eq_self_iff_true, true_and, and_true]
  refine ⟨⟨?_, ?_⟩, ?_⟩ <;> ring

/-- C2 (amended): the catch-up loop writes the just-grabbed frame into
exactly the schedule slots with `next_frame_time < now` (strict, not the
claimed `<=`), each tagged with its slot time, advancing the schedule by
one frame period per slot; in particular a tick arriving `3.2`
frame periods after the schedule point writes exactly 4 duplicates of the
grabbed frame with strictly increasing, evenly spaced timestamps
`next, next+fd, next+2*fd, next+3*fd` and leaves the schedule at
`next + 4*fd`. -/
theorem C2_catch_up_backfill {α : Type} (f : α) (now next t : ℚ)
    (l : List ℚ) (v : List α) :
    (t ∈ (catchUp now next).1 ↔
        ∃ j : ℕ, t = next + (j : ℚ) * frame_duration ∧ t < now) ∧
      (workerStep f (next + (16/5) * frame_duration)
            (WorkerState.mk next l v)).frame_log
          = l ++ [next, next + frame_duration, next + 2 * frame_duration,
              next + 3 * frame_duration] ∧
      (workerStep f (next + (16/5) * frame_duration)
            (WorkerState.mk next l v)).video = v ++ [f, f, f, f] ∧
      (workerStep f (next + (16/5) * frame_duration)
            (WorkerState.mk next l v)).next_frame_time
          = next + 4 * frame_duration := by
  refine ⟨catchUp_mem_iff now next t, ?_, ?_, ?_⟩ <;>
    simp [workerStep, catchUp_backfill_32]

/-- C2 counterexample to the claim as stated: with `next = now = 0` the
slot `0` satisfies `next ≤ now`, yet the loop writes nothing for it and
does not advance the schedule — the code's condition is strict `<`, not
the claimed `<=`. -/
theorem C2_catch_up_counterexample :
    (0:ℚ) ≤ 0 ∧ (catchUp 0 0).1 = [] ∧ (catchUp 0 0).2 = 0 := by
  refine ⟨le_refl 0, ?_, ?_⟩ <;> rw [catchUp_of_not_lt (lt_irrefl 0)]

/-! ## C3: key-state replay -/

lemma keysDownLoop_takeWhile (t : ℚ) :
    ∀ (tl : KeyTimeline) (acc : Finset String),
      keysDownLoop t tl acc =
        (tl.takeWhile (fun e => decide (e.1 ≤ t))).foldl
          (fun keys e =>
            match e.2.2 with
            | .keydown => insert e.2.1 keys
            | .keyup => keys.erase e.2.1) acc := by
  intro tl
  induction tl with
  | nil => intro acc; simp [keysDownLoop]
  | cons e rest ih =>
    intro acc
    obtain ⟨te, ke, ev⟩ := e
    by_cases h : t < te
    · have hd : ¬ (te ≤ t) := not_le.mpr h
      cases ev <;> simp [keysDownLoop, h, List.takeWhile_cons, hd]
    · have hle : te ≤ t := not_lt.mp h
      cases ev <;> simp [keysDownLoop, h, List.takeWhile_cons, hle, ih]

/-- C3: `get_keys_down_at_time` equals the spec's replay — apply the
ordered events up to and including timestamp `t`, stopping before the
first event whose timestamp strictly exceeds `t` — and on the concrete
timeline `[(1.0,'f',keydown), (2.0,'f',keyup)]` it returns `{}` at 0.5,
`{'f'}` at 1.5 and `{}` at 2.5. -/
theorem C3_keys_down_replay :
    (∀ (timeline : KeyTimeline) (t : ℚ),
        get_keys_down_at_time timeline t = keysDownSpec timeline t) ∧
      get_keys_down_at_time exampleTimeline (1/2) = ∅ ∧
      get_keys_down_at_time exampleTimeline (3/2) = {"f"} ∧
      get_keys_down_at_time exampleTimeline (5/2) = ∅ := by
  refine ⟨fun tl t => ?_,
    by norm_num [get_keys_down_at_time, exampleTimeline, keysDownLoop],
    by norm_num [get_keys_down_at_time, exampleTimeline, keysDownLoop],
    by norm_num [get_keys_down_at_time, exampleTimeline, keysDownLoop,
      Finset.erase_insert]⟩
  unfold get_keys_down_at_time keysDownSpec
  exact keysDownLoop_takeWhile t tl ∅

/-! ## C4: frame-index → timestamp lookup -/

/-- C4 (amended): within the logged range the lookup returns the logged
timestamp; past the end it extrapolates from the *length* of the log, not
the last index: `last_logged + checker_frame_period * (i - len(log))`,
which is `last_logged + (i - last_logged_index - 1) * frame_period` — one
frame period less than the claimed extrapolation, so index `len(log)`
repeats the last logged timestamp. -/
theorem C4_frame_timestamp_lookup (ts : List ℚ) (i : ℕ) (h : ts ≠ []) :
    (∀ hi : i < ts.length, frame_timestamp ts i = ts.get ⟨i, hi⟩) ∧
      (ts.length ≤ i →
        frame_timestamp ts i
          = ts.getLast h
              + checker_frame_period * (((i : ℚ) - ((ts.length : ℚ) - 1)) - 1)) := by
  constructor
  · intro hi
    rw [frame_timestamp, if_pos hi, List.getD_eq_getElem ts 0 hi]
    simp
  · intro hge
    rw [frame_timestamp, if_neg (not_lt.mpr hge)]
    have hl : ts.getLastD 0 = ts.getLast h := by
      cases ts with
      | nil => exact absurd rfl h
      | cons a l => rw [List.getLastD_cons, List.getLast_eq_getLastD]
    rw [hl]
    ring

/-- C4 witness: the log `[7, 9]` looked up in range at index 1 and past
the end at index 3. -/
theorem C4_frame_timestamp_lookup_witness :
    frame_timestamp [(7:ℚ), 9] 1 = 9 ∧
      frame_timestamp [(7:ℚ), 9] 3
        = 9 + checker_frame_period * ((((3:ℕ) : ℚ) - (((2:ℕ) : ℚ) - 1)) - 1) := by
  have h := C4_frame_timestamp_lookup [(7:ℚ), 9] 3 (by simp)
  have h1 := C4_frame_timestamp_lookup [(7:ℚ), 9] 1 (by simp)
  refine ⟨?_, ?_⟩
  · have := h1.1 (by norm_num)
    simpa using this
  · have := h.2 (by norm_num)
    simpa using this

/-- C4 counterexample to the claim as stated: for the one-entry log `[0]`
(last logged index 0, last timestamp 0) at index 1 the claim's
extrapolation `last + (i - last_index) * frame_period` gives `1/10`, but
the code returns `0 + 0.1 * (1 - len([0])) = 0`. -/
theorem C4_frame_timestamp_counterexample :
    frame_timestamp [(0:ℚ)] 1 = 0 ∧
      (0:ℚ) + (((1:ℚ) - 0) * checker_frame_period) = 1/10 ∧
      (0:ℚ) ≠ 1/10 := by
  refine ⟨?_, by norm_num [checker_frame_period], by norm_num⟩
  rw [frame_timestamp]
  norm_num

/-! ## C5/C6: fight-timer accounting -/

lemma marker_fight_start_props (s : RecorderState) (t : ℚ)
    (hrec : s.is_recording = true) (hnf : s.in_fight = false) :
    (log_marker_event s "fight_start" t).is_recording = true ∧
      (log_marker_event s "fight_start" t).in_fight = true ∧
      (log_marker_event s "fight_start" t).current_fight_start_time = t ∧
      (log_marker_event s "fight_start" t).total_fight_time = s.total_fight_time ∧
      (log_marker_event s "fight_start" t).fights_marked = s.fights_marked + 1 := by
  simp [log_marker_event, hrec, hnf]

lemma marker_fight_end_props (s : RecorderState) (t : ℚ)
    (hrec : s.is_recording = true) (hf : s.in_fight = true) :
    (log_marker_event s "fight_end" t).is_recording = true ∧
      (log_marker_event s "fight_end" t).in_fight = false ∧
      (log_marker_event s "fight_end" t).total_fight_time
        = s.total_fight_time + (t - s.current_fight_start_time) ∧
      (log_marker_event s "fight_end" t).fights_marked = s.fights_marked := by
  simp [log_marker_event, hrec, hf]

lemma stats_elapsed_in_fight (s : RecorderState) (t : ℚ)
    (hrec : s.is_recording = true) (hf : s.in_fight = true) :
    (get_session_stats s t).elapsed_s
      = s.total_fight_time + (t - s.current_fight_start_time) := by
  simp [get_session_stats, hrec, hf]

lemma applyMarkers_pairs (pairs : List (ℚ × ℚ)) :
    ∀ s : RecorderState, s.is_recording = true → s.in_fight = false →
      (applyMarkers s (pairsToMarkers pairs)).is_recording = true ∧
        (applyMarkers s (pairsToMarkers pairs)).in_fight = false ∧
        (applyMarkers s (pairsToMarkers pairs)).total_fight_time
          = s.total_fight_time + ((pairs.map fun p => p.2 - p.1).sum) ∧
        (applyMarkers s (pairsToMarkers pairs)).fights_marked
          = s.fights_marked + pairs.length := by
  induction pairs with
  | nil =>
    intro s h1 h2
    simp [applyMarkers, pairsToMarkers, h1, h2]
  | cons p rest ih =>
    intro s h1 h2
    have hm : pairsToMarkers (p :: rest)
        = ("fight_start", p.1) :: ("fight_end", p.2) :: pairsToMarkers rest := by
      simp [pairsToMarkers]
    have happ : applyMarkers s (pairsToMarkers (p :: rest))
        = applyMarkers
            (log_marker_event (log_marker_event s "fight_start" p.1) "fight_end" p.2)
            (pairsToMarkers rest) := by
      rw [hm]
      rfl
    rw [happ]
    have hs1 := marker_fight_start_props s p.1 h1 h2
    have hs2 := marker_fight_end_props _ p.2 hs1.1 hs1.2.1
    have ih2 := ih _ hs2.1 hs2.2.1
    refine ⟨ih2.1, ih2.2.1, ?_, ?_⟩
    · rw [ih2.2.2.1, hs2.2.2.1, hs1.2.2.1, hs1.2.2.2.1]
      simp only [List.map_cons, List.sum_cons]
      ring
    · rw [ih2.2.2.2, hs2.2.2.2, hs1.2.2.2.2]
      simp only [List.length_cons]
      omega

/-- C5: while Recording, `get_session_stats` reports elapsed fight time as
the sum of the durations of all completed `fight_start`/`fight_end` pairs
plus — when a `fight_start` is currently unmatched — the live time elapsed
since it: after any completed pairs and a trailing `fight_start` at `u`,
a query at `tq` yields `total + Σ (end - start) + (tq - u)`. (The concrete
sequence `fight_start@10, fight_end@15, fight_start@20` queried at 23,
yielding 8, is the witness instance.) -/
theorem C5_fight_timer_stats (s : RecorderState) (pairs : List (ℚ × ℚ))
    (u tq : ℚ) (hrec : s.is_recording = true) (hnf : s.in_fight = false) :
    (get_session_stats
        (log_marker_event (applyMarkers s (pairsToMarkers pairs))
          "fight_start" u) tq).elapsed_s
      = s.total_fight_time + ((pairs.map fun p => p.2 - p.1).sum) + (tq - u) := by
  have hp := applyMarkers_pairs pairs s hrec hnf
  have hs1 := marker_fight_start_props _ u hp.1 hp.2.1
  rw [stats_elapsed_in_fight _ tq hs1.1 hs1.2.1, hs1.2.2.1, hs1.2.2.2.1,
    hp.2.2.1]

/-- C5 witness: the spec's concrete sequence — `fight_start@10`,
`fight_end@15`, `fight_start@20`, stats queried at 23 — reports
`5 + 3 = 8` seconds of fight time. -/
theorem C5_fight_timer_stats_witness :
    (get_session_stats
        (log_marker_event
          (applyMarkers recState0 (pairsToMarkers [((10:ℚ), (15:ℚ))]))
          "fight_start" 20) 23).elapsed_s = 8 := by
  have h := C5_fight_timer_stats recState0 [((10:ℚ), (15:ℚ))] 20 23 rfl rfl
  rw [h]
  norm_num [recState0]

/-- C6: `stop_session` called while Recording with an unmatched
`fight_start` adds the partial duration up to the stop time into the
accumulated total — as if a synthetic `fight_end` fired at stop time — and
clears the in-fight flag (and stops recording). -/
theorem C6_stop_folds_partial_fight (s : RecorderState) (t : ℚ)
    (hrec : s.is_recording = true) (hf : s.in_fight = true) :
    (stop_session s t).total_fight_time
        = s.total_fight_time + (t - s.current_fight_start_time) ∧
      (stop_session s t).in_fight = false ∧
      (stop_session s t).is_recording = false := by
  simp [stop_session, hrec, hf]

/-- C6 witness: stopping `fightState0` (5 s accumulated, in a fight since
t = 20) at t = 23 yields an 8 s total with the fight closed. -/
theorem C6_stop_folds_partial_fight_witness :
    (stop_session fightState0 23).total_fight_time = 8 ∧
      (stop_session fightState0 23).in_fight = false := by
  have h := C6_stop_folds_partial_fight fightState0 23 rfl rfl
  refine ⟨?_, h.2.1⟩
  rw [h.1]
  norm_num [fightState0]

/-! ## C7/C8: start_session error behaviour -/

/-- C7 (amended): calling `start_session` while already Recording is a
silent no-op, not an `AlreadyRecordingError`: it returns normally with the
state — counters, fight timer, and all on-disk artifacts — completely
unchanged, so the existing session keeps recording. -/
theorem C7_start_while_recording_noop (s : RecorderState) (name : String)
    (sink : Bool) (h : s.is_recording = true) :
    start_session s name sink = Except.ok s := by
  simp [start_session, h]

/-- C7 witness: starting again on the concrete recording state
`recState0` returns it unchanged. -/
theorem C7_start_while_recording_noop_witness :
    start_session recState0 "x" true = Except.ok recState0 :=
  C7_start_while_recording_noop recState0 "x" true rfl

/-- C7 counterexample to the claim as stated: on the recording state
`recState0` the call does *not* fail with `AlreadyRecordingError` (no such
exception exists in the source); it returns normally (the state is indeed
unchanged). -/
theorem C7_no_already_recording_error :
    start_session recState0 "x" true = Except.ok recState0 ∧
      start_session recState0 "x" true ≠ Except.error RecError.alreadyRecording := by
  refine ⟨rfl, ?_⟩
  simp [start_session, recState0]

/-- C8 (amended): `start_session` never surfaces a `CaptureInitError`:
whether or not the video sink can be opened (`cv2.VideoWriter` is never
checked), an idle session transitions to Recording, starts the capture
worker, and creates/truncates the three output files. -/
theorem C8_start_ignores_sink_failure (s : RecorderState) (name : String)
    (h : s.is_recording = false) :
    start_session s name false = start_session s name true ∧
      ∃ s2 : RecorderState, start_session s name false = Except.ok s2 ∧
        s2.is_recording = true ∧ s2.worker_started = true ∧
        s2.shutdown_set = false ∧
        s2.disk = s.disk ++
          [name ++ ".mp4", name ++ "_events.jsonl", name ++ "_frames.jsonl"] := by
  constructor
  · rfl
  · simp only [start_session, h, Bool.false_eq_true, if_false]
    exact ⟨_, rfl, rfl, rfl, rfl, rfl⟩

/-- C8 witness: starting the concrete idle state `idleState0` with an
unopenable sink still transitions to Recording and creates the files. -/
theorem C8_start_ignores_sink_failure_witness :
    start_session idleState0 "x" false = start_session idleState0 "x" true ∧
      ∃ s2 : RecorderState, start_session idleState0 "x" false = Except.ok s2 ∧
        s2.is_recording = true ∧ s2.worker_started = true ∧
        s2.shutdown_set = false ∧
        s2.disk = idleState0.disk ++
          ["x" ++ ".mp4", "x" ++ "_events.jsonl", "x" ++ "_frames.jsonl"] :=
  C8_start_ignores_sink_failure idleState0 "x" rfl

/-- C8 counterexample to the claim as stated: starting the idle state
`idleState0` with a sink that cannot be opened does not fail with
`CaptureInitError` and does not remain Idle — it returns normally with
`is_recording = true` and the worker thread started. -/
theorem C8_no_capture_init_error :
    start_session idleState0 "x" false
        = Except.ok
            { is_recording := true
              shutdown_set := false
              worker_started := true
              fights_marked := 0
              last_action := "Ready"
              in_fight := false
              total_fight_time := 0
              current_fight_start_time := 0
              disk := ["x.mp4", "x_events.jsonl", "x_frames.jsonl"]
              events := [] } ∧
      start_session idleState0 "x" false ≠ Except.error RecError.captureInit := by
  refine ⟨rfl, ?_⟩
  simp [start_session, idleState0]

/-! ## C9/C10: stop idempotence and stats after stop -/

/-- C9: `stop_session` is idempotent — calling it on an Idle recorder is a
no-op returning the state (and its modelled on-disk artifacts) unchanged,
and calling it twice in a row, at any pair of times, leaves exactly the
state produced by calling it once. -/
theorem C9_stop_idempotent (s : RecorderState) (t1 t2 : ℚ) :
    stop_session (stop_session s t1) t2 = stop_session s t1 ∧
      (s.is_recording = false → stop_session s t1 = s) := by
  have hid : ∀ (u : RecorderState) (tu : ℚ),
      u.is_recording = false → stop_session u tu = u := by
    intro u tu hu
    simp [stop_session, hu]
  have h : (stop_session s t1).is_recording = false := by
    by_cases hr : s.is_recording <;> cases hf : s.in_fight <;>
      simp [stop_session, hr, hf]
  exact ⟨hid _ t2 h, hid s t1⟩

/-- C9 witness: double stop on the concrete idle state is the single
stop, and the single stop is the identity there. -/
theorem C9_stop_idempotent_witness :
    stop_session (stop_session idleState0 1) 2 = stop_session idleState0 1 ∧
      stop_session idleState0 1 = idleState0 :=
  ⟨(C9_stop_idempotent idleState0 1 2).1,
    (C9_stop_idempotent idleState0 1 2).2 rfl⟩

/-- C10: whenever no session is Recording — in particular immediately
after any `stop_session` — `get_session_stats` returns the fixed record
`{elapsed_s := 0, fights_marked := 0, last_action := "Stopped"}`,
regardless of the totals accumulated in the state. -/
theorem C10_stats_stopped (s s2 : RecorderState) (t tq : ℚ)
    (h : s.is_recording = false) :
    get_session_stats s tq = ⟨0, 0, "Stopped"⟩ ∧
      get_session_stats (stop_session s2 t) tq = ⟨0, 0, "Stopped"⟩ := by
  constructor
  · simp [get_session_stats, h]
  · have h2 : (stop_session s2 t).is_recording = false := by
      by_cases hr : s2.is_recording <;> cases hf : s2.in_fight <;>
        simp [stop_session, hr, hf]
    simp [get_session_stats, h2]

/-- C10 witness: stats on the concrete idle state, and right after
stopping the mid-fight state `fightState0` (which had 5 s accumulated and
a fight open), both report zero fight time, zero fights, "Stopped". -/
theorem C10_stats_stopped_witness :
    get_session_stats idleState0 25 = ⟨0, 0, "Stopped"⟩ ∧
      get_session_stats (stop_session fightState0 23) 25 = ⟨0, 0, "Stopped"⟩ :=
  ⟨(C10_stats_stopped idleState0 fightState0 23 25 rfl).1,
    (C10_stats_stopped idleState0 fightState0 23 25 rfl).2⟩
